import Mathlib

/-!
Shallow embedding of the connection/session core of the thelounge fork:
`Network` (network.js) and `ClientManager` (clientManager.js), together
with the parts of their collaborators that the verified properties need.
JavaScript strings are modelled as Lean `String` (one `Char` per UTF-16
code unit; all inputs of interest are BMP text, where the two coincide),
machine numbers as `Nat`, nullable values as `Option`, and the in-place
mutation of `this` as explicit state passing.
-/

set_option maxHeartbeats 2000000

namespace TheLounge

/-! ### Messages and channels (msg.js / chan.js data carried by network.js) -/

inductive MsgType where
  | error
deriving DecidableEq

structure Msg where
  type : MsgType
  text : String
deriving DecidableEq

inductive ChanType where
  | lobby
  | channel
  | query
  | special
deriving DecidableEq

structure Chan where
  type : ChanType
  name : String := ""
  key : String := ""
  messages : List Msg := []
deriving DecidableEq

/-! ### The irc-framework handle (external collaborator; only the fields
network.js reads or writes are modelled) -/

structure Socket where
  remoteAddress : String
  encrypted : Bool
  authorized : Bool
deriving DecidableEq

structure Transport where
  isConnected : Bool
  socket : Option Socket
deriving DecidableEq

structure Connection where
  connected : Bool
  transport : Option Transport
deriving DecidableEq

structure IrcOptions where
  host : String := ""
  port : Nat := 0
  nick : String := ""
  username : String := ""
  gecos : String := ""
  password : String := ""
  tls : Bool := false
  rejectUnauthorized : Bool := false
deriving DecidableEq

structure IrcUser where
  nick : String := ""
  username : String := ""
  gecos : String := ""
deriving DecidableEq

structure IrcState where
  connection : Option Connection := none
  options : IrcOptions := {}
  user : IrcUser := {}
  capSetname : Bool := false
deriving DecidableEq

structure ServerOptions where
  CHANTYPES : List String := ["#", "&"]
  PREFIX : List String := ["!", "@", "%", "+"]
  NETWORK : String := ""
deriving DecidableEq

/-! ### Network state (the own properties of a Network instance) -/

structure NetworkState where
  uuid : String
  name : String := ""
  nick : String := ""
  host : String := ""
  port : Nat := 6667
  tls : Bool := false
  userDisconnected : Bool := false
  rejectUnauthorized : Bool := false
  password : String := ""
  awayMessage : String := ""
  commands : List String := []
  username : String := ""
  realname : String := ""
  channels : List Chan := []
  irc : Option IrcState := none
  serverOptions : ServerOptions := {}
  chanCache : List Chan := []
  ignoreList : List String := []
  keepNick : Option String := none
  highlightRegex : String := ""
deriving DecidableEq

/-! ### Helper.config (administrator configuration consumed by network.js) -/

structure ConfigDefaults where
  host : String := ""
  port : Nat := 6697
  tls : Bool := true
  rejectUnauthorized : Bool := true
deriving DecidableEq

structure Config where
  lockNetwork : Bool := false
  public : Bool := false
  defaults : ConfigDefaults := {}
  defaultNick : String := "thelounge"
  leaveMessage : String := "The Lounge - https://thelounge.chat"
  useHexIp : Bool := false
  displayNetwork : Bool := true
deriving DecidableEq

/-! ### STS policy store.

Modelled from the spec: the STS plugin (plugins/sts) is not among the
source files; sections 3 and 4.2 of the spec describe it: a mapping from
lowercase hostname to a policy (target port, validity duration, absolute
expiry), where a policy whose expiry is in the past is treated as absent,
and `refreshExpiration` recomputes the expiry from now using the original
duration (a no-op when the policy is absent or already expired). -/

structure STSPolicy where
  port : Nat
  duration : Nat
  expiry : Nat
deriving DecidableEq

abbrev STSStore := List (String × STSPolicy)

/-- Modelled from the spec: `STSPolicies.get(host)` — a policy or absent,
ignoring expired entries. -/
def stsGet : STSStore → String → Nat → Option STSPolicy
  | [], _, _ => none
  | e :: rest, host, now =>
    if e.1 = host then (if now ≤ e.2.expiry then some e.2 else none)
    else stsGet rest host now

/-- Modelled from the spec: `STSPolicies.refreshExpiration(host)` — if an
unexpired policy exists for the host, its expiry becomes now plus its
original duration; otherwise nothing changes. -/
def refreshExpiration : STSStore → String → Nat → STSStore
  | [], _, _ => []
  | e :: rest, host, now =>
    (if e.1 = host ∧ now ≤ e.2.expiry then (e.1, { e.2 with expiry := now + e.2.duration }) else e)
      :: refreshExpiration rest host now

/-! ### Lobby message delivery.

Modelled from the spec: `Chan#pushMessage` (chan.js is not among the source
files) delivers a system message to the channel entity; here it appends the
message to the lobby entry's message list (`this.channels[0]`). -/

def pushLobby (net : NetworkState) (m : Msg) : NetworkState :=
  { net with
    channels :=
      match net.channels with
      | [] => []
      | c :: rest => { c with messages := c.messages ++ [m] } :: rest }

def lobbyMessages (net : NetworkState) : List Msg :=
  match net.channels with
  | [] => []
  | c :: _ => c.messages

/-! ### validate() and its sanitization helpers (network.js lines 65-146) -/

/-- The character class of the JavaScript regex `\s` (ECMAScript
WhiteSpace and LineTerminator). -/
def isJsWhitespace (c : Char) : Bool :=
  c ∈ [' ', '\t', '\n', '\x0b', '\x0c', '\r', ' ', ' ', ' ', ' ',
       ' ', ' ', '　', '﻿']
  || (' ' ≤ c && c ≤ ' ')

/-- The character class of the nick-cleaning regex `/[\x00\s:!@]/`. -/
def isNickStripChar (c : Char) : Bool :=
  c == '\x00' || isJsWhitespace c || c == ':' || c == '!' || c == '@'

/-- `(str) => str.replace(/[\x00\s:!@]/g, "_").substring(0, 100)` -/
def cleanNick (s : String) : String :=
  ⟨(s.data.map fun c => if isNickStripChar c then '_' else c).take 100⟩

/-- `(str) => str.replace(/[\x00\r\n]/g, "").substring(0, 300)` -/
def cleanString (s : String) : String :=
  ⟨(s.data.filter fun c => !(c == '\x00' || c == '\r' || c == '\n')).take 300⟩

/-- JavaScript `toLowerCase()`, character by character (the inputs of
interest are ASCII, where this agrees with the JS Unicode mapping). -/
def lowerString (s : String) : String :=
  ⟨s.data.map Char.toLower⟩

/-- lodash `_.escapeRegExp`: prefix every regex metacharacter with a
backslash. -/
def escapeRegExp (s : String) : String :=
  ⟨s.data.foldr
    (fun c acc =>
      if c ∈ ['^', '$', '.', '*', '+', '?', '(', ')', '[', ']', '\x7b', '\x7d', '|', '\\']
      then '\\' :: c :: acc else c :: acc) []⟩

/-- The highlight pattern built by `setNick` (network.js lines 285-295). -/
def mkHighlightPattern (nick : String) : String :=
  "(?:^|[^a-z0-9]|\x03[0-9]\x7b1,2\x7d)" ++ escapeRegExp nick ++ "(?:[^a-z0-9]|$)"

/-- `Network.prototype.setNick` (network.js lines 283-300). -/
def setNick (net : NetworkState) (nick : String) : NetworkState :=
  let net := { net with nick := nick, highlightRegex := mkHighlightPattern nick }
  if net.keepNick = some nick then { net with keepNick := none } else net

/-- JavaScript `/[^a-zA-Z0-9]/g` removal used to derive a username from
the nick. -/
def filterAlnum (s : String) : String :=
  ⟨s.data.filter fun c => c.isAlpha || c.isDigit⟩

/-- The in-place normalization prefix of `validate` (network.js lines
65-87): nick cleaning, username derivation, field sanitization, port
defaulting. -/
def sanitize (cfg : Config) (net : NetworkState) : NetworkState :=
  let net := setNick net (cleanNick (if net.nick = "" then cfg.defaultNick else net.nick))
  let net := if net.username = "" then { net with username := filterAlnum net.nick } else net
  let net :=
    { net with
      username := if cleanString net.username = "" then "thelounge" else cleanString net.username,
      realname := if cleanString net.realname = "" then "The Lounge User" else cleanString net.realname,
      password := cleanString net.password,
      host := lowerString (cleanString net.host),
      name := cleanString net.name }
  if net.port = 0 then { net with port := if net.tls then 6697 else 6667 } else net

/-- The lock-mode override of host/port/tls/rejectUnauthorized (network.js
lines 109-112), applied when `lockNetwork` is set and the host check
passed. -/
def afterLock (cfg : Config) (net : NetworkState) : NetworkState :=
  if cfg.lockNetwork then
    { net with
      host := cfg.defaults.host,
      port := cfg.defaults.port,
      tls := cfg.defaults.tls,
      rejectUnauthorized := cfg.defaults.rejectUnauthorized }
  else net

def stsNoticeText (host : String) (port : Nat) : String :=
  host ++ " has an active strict transport security policy, will connect to port "
    ++ toString port ++ " over a secure connection."

/-- `Network.prototype.validate` (network.js lines 65-146). The store and
`now` parametrize the STS collaborator; the Bool is the return value and
the state carries the in-place mutations, including messages pushed to the
lobby. -/
def validate (cfg : Config) (store : STSStore) (now : Nat) (net : NetworkState) :
    NetworkState × Bool :=
  let n := sanitize cfg net
  if cfg.lockNetwork ∧ ¬cfg.public ∧ n.host ≠ "" ∧ n.host ≠ cfg.defaults.host then
    (pushLobby n (Msg.mk .error "Hostname you specified is not allowed."), false)
  else
    let n := afterLock cfg n
    if n.host = "" then
      (pushLobby n (Msg.mk .error "You must specify a hostname to connect."), false)
    else
      match stsGet store n.host now with
      | some policy =>
        if n.tls then (n, true)
        else
          let n := pushLobby n (Msg.mk .error (stsNoticeText n.host policy.port))
          ({ n with port := policy.port, tls := true, rejectUnauthorized := true }, true)
      | none => (n, true)

/-! ### edit() (network.js lines 210-277) -/

/-- The user-submitted field set handed to `edit`. JavaScript coercions
are folded into the types: `String(args.x || "")` makes every field a
string (absent becomes the empty string), `!!args.x` a Bool, and
`parseInt(args.port, 10)` a number where 0 stands for the falsy results
(0 and NaN), which validate's `if (!this.port)` then defaults. -/
structure EditArgs where
  nick : String := ""
  host : String := ""
  name : String := ""
  port : Nat := 0
  tls : Bool := false
  rejectUnauthorized : Bool := false
  password : String := ""
  username : String := ""
  realname : String := ""
  commands : String := ""
deriving DecidableEq

/-- `.replace(/\r\n|\r|\n/g, "\n")`: normalize CRLF, CR and LF to LF. -/
def normalizeNewlines : List Char → List Char
  | [] => []
  | '\r' :: '\n' :: rest => '\n' :: normalizeNewlines rest
  | '\r' :: rest => '\n' :: normalizeNewlines rest
  | c :: rest => c :: normalizeNewlines rest

/-- `.split("\n")` on a normalized character list. -/
def splitOnNl : List Char → List (List Char)
  | [] => [[]]
  | '\n' :: rest => [] :: splitOnNl rest
  | c :: rest =>
    match splitOnNl rest with
    | [] => [[c]]
    | h :: t => (c :: h) :: t

/-- `String(args.commands || "").replace(/\r\n|\r|\n/g, "\n").split("\n")`
with empty lines discarded. -/
def splitCommands (s : String) : List String :=
  ((splitOnNl (normalizeNewlines s.data)).map fun l => (⟨l⟩ : String)).filter
    fun command => command.length > 0

/-- `this.channels[0].name = this.name` -/
def syncLobbyName (net : NetworkState) (name : String) : NetworkState :=
  { net with
    channels :=
      match net.channels with
      | [] => []
      | c :: rest => { c with name := name } :: rest }

/-- What `edit` produced: the new network state, whether `client.save()`
ran, and the protocol/client-layer side effects it emitted. -/
structure EditResult where
  network : NetworkState
  saved : Bool
  sentNickChange : Option String := none
  emittedNickEvent : Option (String × String) := none
  sentSetname : Option String := none
deriving DecidableEq

/-- `Network.prototype.edit` (network.js lines 210-277). All mutable
fields are overwritten from `args` in place, the lobby name is synced,
then `validate` runs; when it fails the function returns with the
mutations applied but no connection-side effects and no save. -/
def edit (cfg : Config) (store : STSStore) (now : Nat) (net : NetworkState)
    (args : EditArgs) : EditResult :=
  let oldNick := net.nick
  let oldRealname := net.realname
  let host := args.host
  let name := if args.name = "" then host else args.name
  let net :=
    { net with
      keepNick := none
      nick := args.nick
      host := host
      name := name
      port := args.port
      tls := args.tls
      rejectUnauthorized := args.rejectUnauthorized
      password := args.password
      username := args.username
      realname := args.realname
      commands := splitCommands args.commands }
  let net := syncLobbyName net name
  let v := validate cfg store now net
  if v.2 = false then
    { network := v.1, saved := false }
  else
    let net := v.1
    match net.irc with
    | none => { network := net, saved := true }
    | some irc =>
      let connected := (irc.connection.map Connection.connected).getD false
      let step1 : IrcState × Option String × Option (String × String) :=
        if net.nick ≠ oldNick then
          if connected then (irc, some net.nick, none)
          else
            ({ irc with
                options := { irc.options with nick := net.nick }
                user := { irc.user with nick := net.nick } },
              none, some (net.uuid, net.nick))
        else (irc, none, none)
      let irc := step1.1
      let sentSetname :=
        if connected = true ∧ net.realname ≠ oldRealname ∧ irc.capSetname = true then
          some net.realname
        else none
      let irc :=
        { irc with
          options :=
            { irc.options with
              host := net.host
              port := net.port
              password := net.password
              gecos := net.realname
              tls := net.tls
              rejectUnauthorized := net.rejectUnauthorized }
          user := { irc.user with gecos := net.realname } }
      let irc :=
        if cfg.useHexIp then irc
        else
          { irc with
            options := { irc.options with username := net.username }
            user := { irc.user with username := net.username } }
      { network := { net with irc := some irc }
        saved := true
        sentNickChange := step1.2.1
        emittedNickEvent := step1.2.2
        sentSetname := sentSetname }

/-! ### getNetworkStatus / getFilteredClone (network.js lines 302-350) -/

structure NetworkStatus where
  connected : Bool
  secure : Bool
deriving DecidableEq

/-- `Network.prototype.getNetworkStatus` (network.js lines 331-350). -/
def getNetworkStatus (net : NetworkState) : NetworkStatus :=
  match net.irc with
  | none => { connected := false, secure := false }
  | some irc =>
    match irc.connection with
    | none => { connected := false, secure := false }
    | some conn =>
      match conn.transport with
      | none => { connected := false, secure := false }
      | some transport =>
        match transport.socket with
        | none => { connected := false, secure := false }
        | some socket =>
          let isLocalhost := socket.remoteAddress = "127.0.0.1"
          let isAuthorized := socket.encrypted && socket.authorized
          { connected := transport.isConnected
            secure := isAuthorized || isLocalhost }

structure FilteredChan where
  name : String
  type : ChanType
deriving DecidableEq

/-- Modelled from the spec: chan.js is not among the source files; each
channel's `getFilteredClone` is an external collaborator contract that
accepts the same context arguments and returns the channel's own
whitelisted view. -/
def Chan.getFilteredClone (c : Chan) (_lastActiveChannel _lastMessage : Int) : FilteredChan :=
  { name := c.name, type := c.type }

/-- The value universe of a filtered-clone property, keeping each network
field at its own type. -/
inductive JVal where
  | jsUndefined
  | str (s : String)
  | num (n : Nat)
  | bool (b : Bool)
  | strList (l : List String)
  | optStr (s : Option String)
  | chanList (l : List Chan)
  | filteredChans (l : List FilteredChan)
  | serverOpts (o : ServerOptions)
  | ircVal (i : Option IrcState)
  | statusVal (s : NetworkStatus)
deriving DecidableEq

/-- `fieldsForClient` (network.js lines 16-21): the keys sent to the
client by default. -/
def fieldsForClient (k : String) : Bool :=
  ["uuid", "name", "nick", "serverOptions"].contains k

/-- `Object.keys(this)` for a Network instance: the own properties
installed by the constructor's `_.defaults`, plus `uuid` and the
`highlightRegex` installed by `setNick`. -/
def networkKeys : List String :=
  ["name", "nick", "host", "port", "tls", "userDisconnected", "rejectUnauthorized",
   "password", "awayMessage", "commands", "username", "realname", "channels", "irc",
   "serverOptions", "chanCache", "ignoreList", "keepNick", "uuid", "highlightRegex"]

/-- `this[prop]` as a `JVal`. -/
def getProp (n : NetworkState) : String → JVal
  | "uuid" => .str n.uuid
  | "name" => .str n.name
  | "nick" => .str n.nick
  | "host" => .str n.host
  | "port" => .num n.port
  | "tls" => .bool n.tls
  | "userDisconnected" => .bool n.userDisconnected
  | "rejectUnauthorized" => .bool n.rejectUnauthorized
  | "password" => .str n.password
  | "awayMessage" => .str n.awayMessage
  | "commands" => .strList n.commands
  | "username" => .str n.username
  | "realname" => .str n.realname
  | "channels" => .chanList n.channels
  | "irc" => .ircVal n.irc
  | "serverOptions" => .serverOpts n.serverOptions
  | "chanCache" => .chanList n.chanCache
  | "ignoreList" => .strList n.ignoreList
  | "keepNick" => .optStr n.keepNick
  | "highlightRegex" => .str n.highlightRegex
  | _ => .jsUndefined

/-- `Network.prototype.getFilteredClone` (network.js lines 311-329): the
`Object.keys(this).reduce` that keeps `channels` (recursively filtered)
and the whitelisted keys, then attaches `status`. -/
def getFilteredClone (n : NetworkState) (lastActiveChannel lastMessage : Int) :
    List (String × JVal) :=
  (networkKeys.foldl
    (fun newNetwork prop =>
      if prop = "channels" then
        newNetwork ++
          [(prop, JVal.filteredChans
            (n.channels.map fun channel =>
              channel.getFilteredClone lastActiveChannel lastMessage))]
      else if fieldsForClient prop then
        newNetwork ++ [(prop, getProp n prop)]
      else newNetwork)
    [])
  ++ [("status", JVal.statusVal (getNetworkStatus n))]

/-! ### addChannel (network.js lines 352-374) -/

def isChanOrQuery (c : Chan) : Bool :=
  c.type == ChanType.channel || c.type == ChanType.query

/-- Lexicographic comparison of char lists by code point. -/
def jsStrCmp : List Char → List Char → Ordering
  | [], [] => .eq
  | [], _ :: _ => .lt
  | _ :: _, [] => .gt
  | a :: as, b :: bs =>
    match compare a.val.toNat b.val.toNat with
    | .eq => jsStrCmp as bs
    | o => o

/-- The tertiary (case) tiebreak of the default-locale collator, reached
when the lowercased forms are equal: at the first differing position the
lowercase letter sorts before the uppercase one ("a" < "A"), which for
ASCII letters is the reverse of code-point order. -/
def jsCaseTiebreak : List Char → List Char → Ordering
  | [], [] => .eq
  | [], _ :: _ => .lt
  | _ :: _, [] => .gt
  | a :: as, b :: bs =>
    if a = b then jsCaseTiebreak as bs
    else compare b.val.toNat a.val.toNat

/-- `a.localeCompare(b, {sensitivity: "base"})`. The options object is
passed in the locales slot, so it is ignored and the default-locale
collator with its default sensitivity ("variant") applies: base letters
compare caselessly at primary strength, but case differences decide at
tertiary strength with lowercase first, so
`"#Apple".localeCompare("#apple")` is positive. Modelled for ASCII as
caseless code-point comparison with the lowercase-first tiebreak. -/
def localeCompare (a b : String) : Ordering :=
  match jsStrCmp (lowerString a).data (lowerString b).data with
  | .eq => jsCaseTiebreak a.data b.data
  | o => o

/-- The loop's stopping condition (network.js lines 362-365): the new
channel sorts at or before the occupant, or the occupant is not a
channel/query. -/
def stopHere (newChan c : Chan) : Bool :=
  !(localeCompare newChan.name c.name == Ordering.gt) || !(isChanOrQuery c)

/-- The `for (let i = 1; ...)` scan over `this.channels` from index 1,
returning the first index whose occupant satisfies `stopHere`. -/
def scanFrom (newChan : Chan) : List Chan → Nat → Option Nat
  | [], _ => none
  | c :: rest, i => if stopHere newChan c then some i else scanFrom newChan rest (i + 1)

/-- `this.channels.splice(index, 0, newChan)`. -/
def spliceIn (chans : List Chan) (index : Nat) (c : Chan) : List Chan :=
  chans.take index ++ c :: chans.drop index

/-- `Network.prototype.addChannel` (network.js lines 352-374): returns the
new channel list and the index used. -/
def addChannel (chans : List Chan) (newChan : Chan) : List Chan × Nat :=
  let index :=
    if isChanOrQuery newChan then (scanFrom newChan (chans.drop 1) 1).getD chans.length
    else chans.length
  (spliceIn chans index newChan, index)

/-! ### quit (network.js lines 376-385) -/

/-- `Network.prototype.quit`: the new STS store and the quit message sent
to the protocol engine (`none` when never connected). The message follows
`quitMessage || Helper.config.leaveMessage`, so an absent or empty message
falls back to the configured default. -/
def quit (cfg : Config) (store : STSStore) (now : Nat) (net : NetworkState)
    (quitMessage : Option String) : STSStore × Option String :=
  match net.irc with
  | none => (store, none)
  | some _ =>
    (refreshExpiration store net.host now,
      some (match quitMessage with
            | none => cfg.leaveMessage
            | some s => if s = "" then cfg.leaveMessage else s))

/-! ### getChannel (network.js lines 454-461) -/

/-- The `_.find(this.channels, (that, i) => i > 0 && ...)` scan with its
running index. -/
def getChannelAux (nm : String) : List Chan → Nat → Option Chan
  | [], _ => none
  | c :: rest, i =>
    if 0 < i ∧ lowerString c.name = nm then some c else getChannelAux nm rest (i + 1)

/-- `Network.prototype.getChannel`. -/
def getChannel (net : NetworkState) (name : String) : Option Chan :=
  getChannelAux (lowerString name) net.channels 0

/-! ### ClientManager (clientManager.js): loadUser / addUser -/

/-- A `Client` as far as the manager is concerned: the account name and
its configuration blob (kept opaque, as persisted). -/
structure ManagedClient where
  name : String
  config : String
deriving DecidableEq

structure CMState where
  clients : List ManagedClient
deriving DecidableEq

/-- The `users` table: rows of (username, config). The schema's
`name_unique` constraint makes usernames unique. -/
abbrev UsersTable := List (String × String)

/-- `ClientManager.prototype.loadUser` (clientManager.js lines 67-86).
The first component is the value `return client` hands to the caller;
the second is the manager state after the event loop has run the
`database.query` callback. The callback is asynchronous, so on a cache
miss the local `client` is still unset when the function returns: the
caller receives `none` even when a row exists, and the row's client is
pushed into the cache only afterwards. -/
def loadUser (st : CMState) (db : UsersTable) (name : String) :
    Option ManagedClient × CMState :=
  match st.clients.find? (fun u => u.name == name) with
  | some client => (some client, st)
  | none =>
    (none,
      { st with
        clients :=
          st.clients ++ (db.filter (fun row => row.1 == name)).map
            (fun row => { name := row.1, config := row.2 }) })

/-- `ClientManager.prototype.findClient` delegates to `loadUser`. -/
def findClient (st : CMState) (db : UsersTable) (name : String) :
    Option ManagedClient × CMState :=
  loadUser st db name

/-- Node's `path.basename` for POSIX paths: strip trailing separators,
then take the component after the last separator. -/
def basename (p : String) : String :=
  let stripped := p.data.reverse.dropWhile (fun c => c == '/')
  ⟨(stripped.takeWhile (fun c => !(c == '/'))).reverse⟩

/-- `JSON.stringify({password: password || "", log: enableLog})`. -/
def userConfigJson (password : String) (enableLog : Bool) : String :=
  "\x7b\"password\":\"" ++ password ++ "\",\"log\":"
    ++ (if enableLog then "true" else "false") ++ "\x7d"

/-- `ClientManager.prototype.addUser` (clientManager.js lines 92-115).
An invalid name is thrown (`Except.error`); otherwise the INSERT is
issued and the function returns `true` unconditionally — a uniqueness
violation only reaches the asynchronous callback, which logs it, so the
table is left unchanged but the caller still sees `true`. -/
def addUser (db : UsersTable) (name password : String) (enableLog : Bool) :
    Except String (Bool × UsersTable) :=
  if basename name ≠ name then
    Except.error (name ++ " is an invalid username.")
  else
    let db' :=
      if db.any (fun row => row.1 == name) then db
      else db ++ [(name, userConfigJson password enableLog)]
    Except.ok (true, db')

/-! ### Statement-side definitions: the spec's wording, the registry
ordering invariant, and concrete fixtures used by the theorems. -/

/-- The character class named by the spec for nick cleaning: control
characters (C0), whitespace, `:`, `!`, `@`. Stated from the spec's words,
for comparison with the source's `isNickStripChar`. -/
def specNickDisallowed (c : Char) : Bool :=
  c.val < 32 || isJsWhitespace c || c == ':' || c == '!' || c == '@'

/-- The host form named by the spec: control and newline bytes stripped,
truncated to 300 code units, lowercased. Stated from the spec's words,
for comparison with the source's `cleanString`-then-lowercase. -/
def specHostCanonical (s : String) : String :=
  lowerString ⟨(s.data.filter fun c => !(c.val < 32 || c.val == 127)).take 300⟩

/-- The claim's "sorts case-insensitively at or after" relation, stated
from the spec's words: the lowercased names compare at-or-before by code
point, with no case tiebreak. For comparison with the source's
`localeCompare`-based stopping rule. -/
def specCaseInsensitiveLe (a b : String) : Prop :=
  jsStrCmp (lowerString a).data (lowerString b).data ≠ Ordering.gt

/-- At-or-before order on channel names under the collation `addChannel`
actually uses (`localeCompare`: caseless primary, lowercase-first case
tiebreak). -/
def nameLe (a b : Chan) : Prop :=
  localeCompare a.name b.name ≠ Ordering.gt

/-- The channel-list shape `addChannel` maintains behind the lobby: the
channel/query entries come first, sorted by name under `localeCompare`,
and the non-channel/query entries sit after them. -/
def RegistryOrdered (chans : List Chan) : Prop :=
  ∃ xs ys,
    chans.drop 1 = xs ++ ys ∧
    (∀ c ∈ xs, isChanOrQuery c = true) ∧
    (∀ c ∈ ys, isChanOrQuery c = false) ∧
    List.Chain' nameLe xs

/-! Fixtures. -/

def baseLobby (name : String) : Chan := { type := ChanType.lobby, name := name }

def c2cfg : Config :=
  { lockNetwork := true, public := false,
    defaults := { host := "irc.default.org", port := 6697, tls := true, rejectUnauthorized := true },
    defaultNick := "lounger" }

def c2net : NetworkState :=
  { uuid := "u2", name := "irc.default.org", nick := "alice", host := "irc.default.org",
    port := 6697, tls := true, rejectUnauthorized := true, password := "hunter2",
    username := "alice", realname := "Alice",
    channels := [baseLobby "irc.default.org"] }

def c2args : EditArgs :=
  { nick := "alice", host := "irc.other.org", port := 6697, tls := true,
    rejectUnauthorized := true, password := "hunter2", username := "alice",
    realname := "Alice" }

def c3db : UsersTable := [("bob", "cfg")]

def c3bob : ManagedClient := { name := "bob", config := "cfg" }

def c4wcfg : Config := { defaultNick := "lounger" }

def c4wpolicy : STSPolicy := { port := 6697, duration := 100, expiry := 50 }

def c4wstore : STSStore := [("irc.example.org", c4wpolicy)]

def c4wnet : NetworkState :=
  { uuid := "u4", nick := "alice", host := "IRC.Example.org",
    channels := [baseLobby "IRC.Example.org"] }

def c5cfg : Config := { defaultNick := "lounger" }

def c5net : NetworkState :=
  { uuid := "u5", nick := "a\x01b", host := "irc.example.org",
    channels := [baseLobby "irc.example.org"] }

def c6cfg : Config := { defaultNick := "lounger" }

def c6net : NetworkState :=
  { uuid := "u6", nick := "alice", host := "A\x01B",
    channels := [baseLobby "A\x01B"] }

def c6wnet : NetworkState :=
  { uuid := "u6w", nick := "alice", host := "IRC.Example.ORG",
    channels := [baseLobby "IRC.Example.ORG"] }

def c7lobby : Chan := baseLobby "net"

def c7alpha : Chan := { type := ChanType.channel, name := "alpha" }

def c7zulu : Chan := { type := ChanType.channel, name := "zulu" }

def c7mango : Chan := { type := ChanType.channel, name := "mango" }

def c7appleLower : Chan := { type := ChanType.channel, name := "#apple" }

def c7appleUpper : Chan := { type := ChanType.channel, name := "#Apple" }

def c8db : UsersTable := [("bob", userConfigJson "x" false)]

def c9cfg : Config := {}

def c9store : STSStore := [("irc.example.org", { port := 6697, duration := 100, expiry := 50 })]

def c9net : NetworkState :=
  { uuid := "u9", host := "irc.example.org", irc := some {} }

def c10net : NetworkState :=
  { uuid := "u10", name := "net",
    channels := [baseLobby "net", { type := ChanType.channel, name := "#A" }] }

/-! ## Theorems -/

/-- Evaluating the `Object.keys` reduce of `getFilteredClone`: the output
is exactly the whitelisted entries, the filtered channels, and the
status. -/
theorem getFilteredClone_eq (n : NetworkState) (a b : Int) :
    getFilteredClone n a b =
      [("name", JVal.str n.name), ("nick", JVal.str n.nick),
       ("channels", JVal.filteredChans (n.channels.map fun c => c.getFilteredClone a b)),
       ("serverOptions", JVal.serverOpts n.serverOptions), ("uuid", JVal.str n.uuid),
       ("status", JVal.statusVal (getNetworkStatus n))] := rfl

/-- C1: the filtered clone exposes exactly the whitelisted keys (uuid,
display name, nick, protocol-capability snapshot), the recursively
filtered channels and the computed status — never password, ignore list
or the raw connection handle — and two networks differing only in their
password (or ignore list) produce identical filtered clones. -/
theorem c1_getFilteredClone_whitelist (n : NetworkState) (a b : Int)
    (p : String) (il : List String) :
    ((getFilteredClone n a b).map Prod.fst
      = ["name", "nick", "channels", "serverOptions", "uuid", "status"]) ∧
    getFilteredClone { n with password := p, ignoreList := il } a b
      = getFilteredClone n a b := by
  refine ⟨?_, ?_⟩
  · rw [getFilteredClone_eq]; rfl
  · rw [getFilteredClone_eq, getFilteredClone_eq]; rfl

/-- C2 (failing input): under lock-mode with public off, editing the
network from the administrator default host to a different host makes
validate fail, and edit indeed performs no connection-side effects and no
save — but the previously-committed host does not retain its value: the
state keeps the newly-submitted host. -/
theorem c2_edit_keeps_partial_mutation_on_failure :
    c2net.host = "irc.default.org" ∧
    (edit c2cfg [] 0 c2net c2args).saved = false ∧
    (edit c2cfg [] 0 c2net c2args).network.irc = none ∧
    (edit c2cfg [] 0 c2net c2args).sentNickChange = none ∧
    (edit c2cfg [] 0 c2net c2args).emittedNickEvent = none ∧
    (edit c2cfg [] 0 c2net c2args).sentSetname = none ∧
    (edit c2cfg [] 0 c2net c2args).network.host = "irc.other.org" :=
  ⟨rfl, rfl, rfl, rfl, rfl, rfl, rfl⟩

/-- C3 (failing input): with an empty cache and a persisted row for
"bob", loadUser hands `none` back to the caller — the asynchronous query
callback caches the constructed session only after the function has
already returned — while a cached session is returned directly. -/
theorem c3_loadUser_miss_returns_none :
    loadUser ⟨[]⟩ c3db "bob" = (none, ⟨[c3bob]⟩) ∧
    loadUser ⟨[c3bob]⟩ c3db "bob" = (some c3bob, ⟨[c3bob]⟩) :=
  ⟨rfl, rfl⟩

/-- C8 (failing input): adding "bob" when the users table already holds a
"bob" row reports success (`true`) to the caller and leaves the table
unchanged — the uniqueness violation is only logged in the asynchronous
insert callback — while an invalid name is thrown as a fault rather than
surfaced as a message. -/
theorem c8_addUser_silent_success_on_duplicate :
    addUser c8db "bob" "pw2" true = Except.ok (true, c8db) ∧
    addUser [] "../bob" "x" false = Except.error "../bob is an invalid username." :=
  ⟨rfl, rfl⟩

/-- C5 (counterexample): the input nick "a\x01b" contains a control
character, which the claim's class covers, yet validate leaves the nick
containing that very character: the cleaning regex only matches NUL,
whitespace, `:`, `!`, `@`. -/
theorem c5_control_char_survives_nick :
    (c5net.nick.data.any specNickDisallowed) = true ∧
    (validate c5cfg [] 0 c5net).1.nick = "a\x01b" ∧
    (("a\x01b" : String).data.any specNickDisallowed) = true :=
  ⟨rfl, rfl, rfl⟩

/-- C6 (counterexample): for the input host "A\x01B" the claim demands
the control byte \x01 be stripped, but validate only strips NUL, CR and
LF, so the resulting host differs from the claimed canonical form. -/
theorem c6_control_char_survives_host :
    (validate c6cfg [] 0 c6net).1.host = "a\x01b" ∧
    specHostCanonical c6net.host = "ab" ∧
    ("a\x01b" : String) ≠ "ab" :=
  ⟨rfl, rfl, by decide⟩



theorem pushLobby_nick (net : NetworkState) (m : Msg) : (pushLobby net m).nick = net.nick := rfl

theorem pushLobby_host (net : NetworkState) (m : Msg) : (pushLobby net m).host = net.host := rfl

theorem afterLock_nick (cfg : Config) (n : NetworkState) : (afterLock cfg n).nick = n.nick := by
  unfold afterLock; split <;> rfl

theorem afterLock_channels (cfg : Config) (n : NetworkState) :
    (afterLock cfg n).channels = n.channels := by
  unfold afterLock; split <;> rfl

theorem sanitize_nick (cfg : Config) (net : NetworkState) :
    (sanitize cfg net).nick = cleanNick (if net.nick = "" then cfg.defaultNick else net.nick) := by
  simp only [sanitize, setNick]
  repeat' split
  all_goals rfl

theorem sanitize_host (cfg : Config) (net : NetworkState) :
    (sanitize cfg net).host = lowerString (cleanString net.host) := by
  simp only [sanitize, setNick]
  repeat' split
  all_goals rfl

theorem sanitize_channels (cfg : Config) (net : NetworkState) :
    (sanitize cfg net).channels = net.channels := by
  simp only [sanitize, setNick]
  repeat' split
  all_goals rfl

theorem validate_fst_nick (cfg : Config) (store : STSStore) (now : Nat) (net : NetworkState) :
    (validate cfg store now net).1.nick = (sanitize cfg net).nick := by
  simp only [validate]
  repeat' split
  all_goals simp only [pushLobby_nick, afterLock_nick]

theorem cleanNick_no_strip (s : String) :
    ((cleanNick s).data.all fun c => !(isNickStripChar c)) = true := by
  rw [List.all_eq_true]
  intro c hc
  have hc' : c ∈ s.data.map fun c => if isNickStripChar c then '_' else c :=
    List.mem_of_mem_take hc
  obtain ⟨x, _, rfl⟩ := List.mem_map.mp hc'
  by_cases h : isNickStripChar x
  · simp only [h, if_true]
    decide
  · simp [h]

theorem cleanNick_length (s : String) : (cleanNick s).length ≤ 100 :=
  List.length_take_le _ _

/-- C5 (amended): for every input, validate() leaves the nick equal to
the cleaned form of the input nick (or of the configured default when
the input nick is empty), where cleaning replaces each NUL, whitespace,
`:`, `!`, `@` by an underscore and truncates to 100 code units; hence
the nick contains none of those characters and has length at most
100. -/
theorem c5_nick_sanitized_amended (cfg : Config) (store : STSStore) (now : Nat)
    (net : NetworkState) :
    (validate cfg store now net).1.nick
        = cleanNick (if net.nick = "" then cfg.defaultNick else net.nick) ∧
    ((validate cfg store now net).1.nick.data.all fun c => !(isNickStripChar c)) = true ∧
    (validate cfg store now net).1.nick.length ≤ 100 := by
  have h : (validate cfg store now net).1.nick
      = cleanNick (if net.nick = "" then cfg.defaultNick else net.nick) := by
    rw [validate_fst_nick, sanitize_nick]
  exact ⟨h, h ▸ cleanNick_no_strip _, h ▸ cleanNick_length _⟩

/-- C6 (amended): when the deployment is not locked to a fixed network,
after validate() the host equals the input host with NUL, CR and LF
stripped, truncated to 300 code units, and lowercased. -/
theorem c6_host_canonical_amended (cfg : Config) (store : STSStore) (now : Nat)
    (net : NetworkState) (hlock : cfg.lockNetwork = false) :
    (validate cfg store now net).1.host = lowerString (cleanString net.host) := by
  have hal : afterLock cfg (sanitize cfg net) = sanitize cfg net := by
    unfold afterLock; rw [hlock]; simp
  simp only [validate]
  repeat' split
  all_goals simp only [pushLobby_host, hal, sanitize_host]

/-- Witness for the amended C6 theorem on a concrete unlocked
configuration. -/
theorem c6_host_canonical_amended_witness :
    (validate c6cfg [] 0 c6wnet).1.host = lowerString (cleanString c6wnet.host) :=
  c6_host_canonical_amended c6cfg [] 0 c6wnet rfl

theorem getChannelAux_eq_find (nm : String) (l : List Chan) : ∀ i : Nat, 1 ≤ i →
    getChannelAux nm l i = l.find? fun c => lowerString c.name == nm := by
  induction l with
  | nil => intro i _; rfl
  | cons c rest ih =>
    intro i h
    unfold getChannelAux
    by_cases hnm : lowerString c.name = nm
    · rw [if_pos ⟨Nat.lt_of_lt_of_le Nat.zero_lt_one h, hnm⟩]
      simp [List.find?_cons, hnm]
    · rw [if_neg (fun hc => hnm hc.2), ih (i + 1) (by omega)]
      simp [List.find?_cons, hnm]

/-- C10: getChannel matches case-insensitively by name but only among
the entries after index 0 — it equals a find? over `channels.drop 1` —
so it never returns the lobby entry, and looking up the network's own
name on a registry whose lobby bears that name yields none. -/
theorem c10_getChannel_skips_lobby :
    (∀ (net : NetworkState) (name : String),
      getChannel net name
        = (net.channels.drop 1).find? fun c => lowerString c.name == lowerString name) ∧
    getChannel c10net "net" = none := by
  constructor
  · intro net name
    unfold getChannel
    cases hch : net.channels with
    | nil => rfl
    | cons c rest =>
      show getChannelAux _ (c :: rest) 0 = _
      unfold getChannelAux
      rw [if_neg (fun hc => Nat.lt_irrefl 0 hc.1), List.drop_succ_cons, List.drop_zero]
      exact getChannelAux_eq_find _ rest 1 le_rfl
  · rfl

theorem stsGet_refreshExpiration (store : STSStore) (host : String) (now : Nat)
    (p : STSPolicy) (h : stsGet store host now = some p) :
    stsGet (refreshExpiration store host now) host now
      = some { p with expiry := now + p.duration } := by
  induction store with
  | nil => simp [stsGet] at h
  | cons e rest ih =>
    unfold stsGet at h
    unfold refreshExpiration
    by_cases he : e.1 = host
    · rw [if_pos he] at h
      by_cases hexp : now ≤ e.2.expiry
      · rw [if_pos hexp] at h
        injection h with h'
        rw [if_pos ⟨he, hexp⟩]
        unfold stsGet
        rw [if_pos he, if_pos (Nat.le_add_right now e.2.duration), h']
      · rw [if_neg hexp] at h
        exact absurd h (by simp)
    · rw [if_neg he] at h
      rw [if_neg (fun hc => he hc.1)]
      unfold stsGet
      rw [if_neg he]
      exact ih h

/-- C9: quit(message) is a no-op without a connection handle; otherwise
it refreshes the STS policy expiry for the network's host — an unexpired
policy ends with expiry at least now plus its original duration — and
sends a protocol quit carrying the given message, or the configured
default leave message when the message is absent (or empty, which the
`||` fallback treats as absent). -/
theorem c9_quit_refreshes_sts (cfg : Config) (store : STSStore) (now : Nat)
    (net : NetworkState) (m : Option String) :
    (net.irc = none → quit cfg store now net m = (store, none)) ∧
    (net.irc.isSome = true →
      ((quit cfg store now net m).2
         = some (match m with
                 | none => cfg.leaveMessage
                 | some s => if s = "" then cfg.leaveMessage else s)) ∧
      ∀ p : STSPolicy, stsGet store net.host now = some p →
        ∃ q : STSPolicy, stsGet (quit cfg store now net m).1 net.host now = some q
          ∧ now + p.duration ≤ q.expiry) := by
  cases hirc : net.irc with
  | none =>
    exact ⟨fun _ => by simp [quit, hirc], fun hs => absurd hs (by simp)⟩
  | some i =>
    constructor
    · intro hn; cases hn
    · intro _
      constructor
      · simp [quit, hirc]
      · intro p hp
        refine ⟨{ p with expiry := now + p.duration }, ?_, le_rfl⟩
        simp only [quit, hirc]
        exact stsGet_refreshExpiration store net.host now p hp

/-- Witness for C9 at a concrete connected network with an unexpired
policy. -/
theorem c9_quit_refreshes_sts_witness :
    ((quit c9cfg c9store 10 c9net none).2 = some c9cfg.leaveMessage) ∧
    ∃ q : STSPolicy, stsGet (quit c9cfg c9store 10 c9net none).1 "irc.example.org" 10 = some q
      ∧ 10 + 100 ≤ q.expiry := by
  have h := (c9_quit_refreshes_sts c9cfg c9store 10 c9net none).2 rfl
  exact ⟨h.1, h.2 { port := 6697, duration := 100, expiry := 50 } rfl⟩

theorem lobbyMessages_pushLobby (net : NetworkState) (m : Msg) (h : net.channels ≠ []) :
    lobbyMessages (pushLobby net m) = lobbyMessages net ++ [m] := by
  unfold lobbyMessages pushLobby
  cases hch : net.channels with
  | nil => exact absurd hch h
  | cons c rest => rfl

theorem validate_sts_branch (cfg : Config) (store : STSStore) (now : Nat)
    (net : NetworkState) (policy : STSPolicy)
    (hok : (validate cfg store now net).2 = true)
    (hpol : stsGet store (afterLock cfg (sanitize cfg net)).host now = some policy)
    (htls : (afterLock cfg (sanitize cfg net)).tls = false) :
    validate cfg store now net =
      ({ pushLobby (afterLock cfg (sanitize cfg net))
          (Msg.mk .error (stsNoticeText (afterLock cfg (sanitize cfg net)).host policy.port)) with
         port := policy.port, tls := true, rejectUnauthorized := true }, true) := by
  simp only [validate] at hok ⊢
  split at hok
  · simp at hok
  · split at hok
    · simp at hok
    · rw [if_neg (by assumption), if_neg (by assumption), hpol, htls]
      simp

/-- C4: if validate() succeeds, the STS store holds an unexpired policy
for the validated host, and the TLS flag going into the STS check is
off, then the network ends with tls on, certificate verification on,
the policy's port, and the forced-upgrade notice appended to the
lobby. -/
theorem c4_sts_forced_upgrade (cfg : Config) (store : STSStore) (now : Nat)
    (net : NetworkState) (policy : STSPolicy)
    (hchan : net.channels ≠ [])
    (hok : (validate cfg store now net).2 = true)
    (hpol : stsGet store (afterLock cfg (sanitize cfg net)).host now = some policy)
    (htls : (afterLock cfg (sanitize cfg net)).tls = false) :
    (validate cfg store now net).1.tls = true ∧
    (validate cfg store now net).1.rejectUnauthorized = true ∧
    (validate cfg store now net).1.port = policy.port ∧
    lobbyMessages (validate cfg store now net).1
      = lobbyMessages net
        ++ [Msg.mk .error (stsNoticeText (afterLock cfg (sanitize cfg net)).host policy.port)] := by
  rw [validate_sts_branch cfg store now net policy hok hpol htls]
  refine ⟨rfl, rfl, rfl, ?_⟩
  have hch : (afterLock cfg (sanitize cfg net)).channels = net.channels := by
    rw [afterLock_channels, sanitize_channels]
  show lobbyMessages (pushLobby (afterLock cfg (sanitize cfg net)) _) = _
  rw [lobbyMessages_pushLobby _ _ (by rw [hch]; exact hchan)]
  unfold lobbyMessages
  rw [hch]

/-- Witness for C4 at a concrete network and policy store. -/
theorem c4_sts_forced_upgrade_witness :
    (validate c4wcfg c4wstore 10 c4wnet).1.tls = true ∧
    (validate c4wcfg c4wstore 10 c4wnet).1.rejectUnauthorized = true ∧
    (validate c4wcfg c4wstore 10 c4wnet).1.port = c4wpolicy.port ∧
    lobbyMessages (validate c4wcfg c4wstore 10 c4wnet).1
      = lobbyMessages c4wnet
        ++ [Msg.mk .error
            (stsNoticeText (afterLock c4wcfg (sanitize c4wcfg c4wnet)).host c4wpolicy.port)] :=
  c4_sts_forced_upgrade c4wcfg c4wstore 10 c4wnet c4wpolicy (by decide) rfl rfl rfl

theorem jsStrCmp_swap : ∀ (a b : List Char), jsStrCmp b a = (jsStrCmp a b).swap
  | [], [] => rfl
  | [], _ :: _ => rfl
  | _ :: _, [] => rfl
  | a :: as, b :: bs => by
    unfold jsStrCmp
    rcases Nat.lt_trichotomy a.val.toNat b.val.toNat with hlt | heq | hgt
    · rw [Nat.compare_eq_lt.mpr hlt, Nat.compare_eq_gt.mpr hlt]
      rfl
    · rw [Nat.compare_eq_eq.mpr heq, Nat.compare_eq_eq.mpr heq.symm]
      exact jsStrCmp_swap as bs
    · rw [Nat.compare_eq_gt.mpr hgt, Nat.compare_eq_lt.mpr hgt]
      rfl

theorem jsCaseTiebreak_swap : ∀ (a b : List Char), jsCaseTiebreak b a = (jsCaseTiebreak a b).swap
  | [], [] => rfl
  | [], _ :: _ => rfl
  | _ :: _, [] => rfl
  | a :: as, b :: bs => by
    unfold jsCaseTiebreak
    by_cases h : a = b
    · rw [if_pos h, if_pos h.symm]
      exact jsCaseTiebreak_swap as bs
    · rw [if_neg h, if_neg (fun hc => h hc.symm)]
      rcases Nat.lt_trichotomy a.val.toNat b.val.toNat with hlt | heq | hgt
      · rw [Nat.compare_eq_lt.mpr hlt, Nat.compare_eq_gt.mpr hlt]
        rfl
      · rw [Nat.compare_eq_eq.mpr heq, Nat.compare_eq_eq.mpr heq.symm]
        rfl
      · rw [Nat.compare_eq_gt.mpr hgt, Nat.compare_eq_lt.mpr hgt]
        rfl

theorem localeCompare_swap (a b : String) : localeCompare b a = (localeCompare a b).swap := by
  unfold localeCompare
  rw [jsStrCmp_swap (lowerString a).data (lowerString b).data]
  cases h : jsStrCmp (lowerString a).data (lowerString b).data
  · rfl
  · exact jsCaseTiebreak_swap a.data b.data
  · rfl

theorem nameLe_of_scan_gt {nc x : Chan}
    (h : localeCompare nc.name x.name = Ordering.gt) : nameLe x nc := by
  unfold nameLe
  rw [localeCompare_swap, h]
  decide

theorem stopHere_false_elim {nc x : Chan} (h : stopHere nc x = false) :
    localeCompare nc.name x.name = Ordering.gt ∧ isChanOrQuery x = true := by
  simp only [stopHere, Bool.or_eq_false_iff, Bool.not_eq_false'] at h
  refine ⟨?_, h.2⟩
  have h1 := h.1
  cases ho : localeCompare nc.name x.name <;> rw [ho] at h1
  · exact absurd h1 (by decide)
  · exact absurd h1 (by decide)

theorem stopHere_true_query {nc x : Chan} (h1 : stopHere nc x = true)
    (h2 : isChanOrQuery x = true) : localeCompare nc.name x.name ≠ Ordering.gt := by
  intro hcq
  simp only [stopHere, h2, Bool.not_true, Bool.or_false] at h1
  rw [hcq] at h1
  exact absurd h1 (by decide)

theorem scanFrom_split (nc : Chan) (l : List Chan) : ∀ i : Nat,
    (scanFrom nc l i = none ∧ ∀ c ∈ l, stopHere nc c = false) ∨
    ∃ a c b, l = a ++ c :: b ∧ (∀ x ∈ a, stopHere nc x = false) ∧
      stopHere nc c = true ∧ scanFrom nc l i = some (i + a.length) := by
  induction l with
  | nil => intro i; left; exact ⟨rfl, by simp⟩
  | cons c rest ih =>
    intro i
    by_cases h : stopHere nc c = true
    · right
      exact ⟨[], c, rest, rfl, by simp, h, by simp [scanFrom, h]⟩
    · have hf : stopHere nc c = false := by simpa using h
      rcases ih (i + 1) with ⟨hnone, hall⟩ | ⟨a, c', b, hsp, ha, hc', hsome⟩
      · left
        refine ⟨by simp [scanFrom, hf, hnone], ?_⟩
        intro x hx
        rcases List.mem_cons.mp hx with h1 | h2
        · rw [h1]; exact hf
        · exact hall x h2
      · right
        refine ⟨c :: a, c', b, by rw [hsp]; rfl, ?_, hc', ?_⟩
        · intro x hx
          rcases List.mem_cons.mp hx with h1 | h2
          · rw [h1]; exact hf
          · exact ha x h2
        · rw [show scanFrom nc (c :: rest) i = scanFrom nc rest (i + 1) by simp [scanFrom, hf],
            hsome]
          congr 1
          simp [List.length_cons]
          omega

theorem spliceIn_append (xs ys : List Chan) (c : Chan) :
    spliceIn (xs ++ ys) xs.length c = xs ++ c :: ys := by
  unfold spliceIn
  rw [List.take_left, List.drop_left]

theorem spliceIn_length (l : List Chan) (c : Chan) :
    spliceIn l l.length c = l ++ [c] := by
  unfold spliceIn
  rw [List.take_length, List.drop_length]

theorem spliceIn_cons_succ (h : Chan) (rest : List Chan) (i : Nat) (c : Chan) :
    spliceIn (h :: rest) (i + 1) c = h :: spliceIn rest i c := rfl

theorem addChannel_special (chans : List Chan) (c : Chan) (h : isChanOrQuery c = false) :
    addChannel chans c = (chans ++ [c], chans.length) := by
  unfold addChannel
  rw [h, if_neg (by simp)]
  show (spliceIn chans chans.length c, chans.length) = (chans ++ [c], chans.length)
  rw [spliceIn_length]

theorem addChannel_preserves (chans : List Chan) (nc : Chan)
    (hne : chans ≠ []) (hinv : RegistryOrdered chans) :
    (addChannel chans nc).1.head? = chans.head? ∧
    1 ≤ (addChannel chans nc).2 ∧
    RegistryOrdered (addChannel chans nc).1 := by
  obtain ⟨xs, ys, hsplit, hx, hy, hchain⟩ := hinv
  obtain ⟨hd, rest, rfl⟩ : ∃ hd rest, chans = hd :: rest := by
    cases chans with
    | nil => exact absurd rfl hne
    | cons hd rest => exact ⟨hd, rest, rfl⟩
  rw [List.drop_succ_cons, List.drop_zero] at hsplit
  by_cases hq : isChanOrQuery nc = true
  case neg =>
    have hb : isChanOrQuery nc = false := by simpa using hq
    rw [addChannel_special _ _ hb]
    refine ⟨by simp, by simp, xs, ys ++ [nc], ?_, hx, ?_, hchain⟩
    · show ((hd :: rest) ++ [nc]).drop 1 = xs ++ (ys ++ [nc])
      rw [List.cons_append, List.drop_succ_cons, List.drop_zero, hsplit, List.append_assoc]
    · intro x hx'
      rcases List.mem_append.mp hx' with h1 | h2
      · exact hy x h1
      · rw [List.mem_singleton.mp h2]; exact hb
  case pos =>
    have haddeq : addChannel (hd :: rest) nc
        = (spliceIn (hd :: rest) ((scanFrom nc rest 1).getD (hd :: rest).length) nc,
           (scanFrom nc rest 1).getD (hd :: rest).length) := by
      unfold addChannel
      rw [if_pos hq]
      rfl
    rcases scanFrom_split nc rest 1 with ⟨hnone, hall⟩ | ⟨a, c, b, hsp, ha, hc, hsome⟩
    · rw [haddeq, hnone]
      simp only [Option.getD_none]
      rw [spliceIn_length]
      have hys : ys = [] := by
        cases ys with
        | nil => rfl
        | cons y ys' =>
          have hmem : y ∈ rest := by
            rw [hsplit]; exact List.mem_append_right _ (List.mem_cons_self _ _)
          have hstop := hall y hmem
          have hyq := hy y (List.mem_cons_self _ _)
          simp [stopHere, hyq] at hstop
      rw [hys, List.append_nil] at hsplit
      refine ⟨by simp, by simp, xs ++ [nc], [], ?_, ?_, by simp, ?_⟩
      · show ((hd :: rest) ++ [nc]).drop 1 = (xs ++ [nc]) ++ []
        rw [List.append_nil, List.cons_append, List.drop_succ_cons, List.drop_zero, hsplit]
      · intro x hx'
        rcases List.mem_append.mp hx' with h1 | h2
        · exact hx x h1
        · rw [List.mem_singleton.mp h2]; exact hq
      · rw [List.chain'_append]
        refine ⟨hchain, List.chain'_singleton _, ?_⟩
        intro x hx' y hy'
        simp only [List.head?_cons, Option.mem_def, Option.some.injEq] at hy'
        subst hy'
        exact nameLe_of_scan_gt
          (stopHere_false_elim (hall x (hsplit ▸ List.mem_of_mem_getLast? hx'))).1
    · rw [haddeq, hsome]
      simp only [Option.getD_some]
      have hsplice : spliceIn (hd :: rest) (1 + a.length) nc = hd :: (a ++ nc :: c :: b) := by
        rw [Nat.add_comm, spliceIn_cons_succ, hsp, spliceIn_append]
      rw [hsplice]
      refine ⟨rfl, by omega, ?_⟩
      have heq : xs ++ ys = a ++ c :: b := by rw [← hsplit, hsp]
      rcases List.append_eq_append_iff.mp heq with ⟨t, hat, hyt⟩ | ⟨u, hxu, hcu⟩
      · cases t with
        | cons t0 t' =>
          exfalso
          have ht0a : t0 ∈ a := by
            rw [hat]; exact List.mem_append_right _ (List.mem_cons_self _ _)
          have ht0y : t0 ∈ ys := by
            rw [hyt]; exact List.mem_append_left _ (List.mem_cons_self _ _)
          have hstop := ha t0 ht0a
          have hyq := hy t0 ht0y
          simp [stopHere, hyq] at hstop
        | nil =>
          rw [List.append_nil] at hat
          rw [List.nil_append] at hyt
          refine ⟨a ++ [nc], c :: b, ?_, ?_, ?_, ?_⟩
          · show (hd :: (a ++ nc :: c :: b)).drop 1 = (a ++ [nc]) ++ c :: b
            rw [List.drop_succ_cons, List.drop_zero, List.append_assoc]
            rfl
          · intro x hx'
            rcases List.mem_append.mp hx' with h1 | h2
            · exact hx x (hat ▸ h1)
            · rw [List.mem_singleton.mp h2]; exact hq
          · rw [← hyt]; exact hy
          · rw [List.chain'_append]
            refine ⟨hat ▸ hchain, List.chain'_singleton _, ?_⟩
            intro x hx' y hy'
            simp only [List.head?_cons, Option.mem_def, Option.some.injEq] at hy'
            subst hy'
            exact nameLe_of_scan_gt
              (stopHere_false_elim (ha x (List.mem_of_mem_getLast? hx'))).1
      · cases u with
        | nil =>
          rw [List.append_nil] at hxu
          rw [List.nil_append] at hcu
          refine ⟨a ++ [nc], c :: b, ?_, ?_, ?_, ?_⟩
          · show (hd :: (a ++ nc :: c :: b)).drop 1 = (a ++ [nc]) ++ c :: b
            rw [List.drop_succ_cons, List.drop_zero, List.append_assoc]
            rfl
          · intro x hx'
            rcases List.mem_append.mp hx' with h1 | h2
            · exact hx x (hxu ▸ h1)
            · rw [List.mem_singleton.mp h2]; exact hq
          · rw [hcu]; exact hy
          · rw [List.chain'_append]
            refine ⟨hxu ▸ hchain, List.chain'_singleton _, ?_⟩
            intro x hx' y hy'
            simp only [List.head?_cons, Option.mem_def, Option.some.injEq] at hy'
            subst hy'
            exact nameLe_of_scan_gt
              (stopHere_false_elim (ha x (List.mem_of_mem_getLast? hx'))).1
        | cons u0 u' =>
          injection hcu with hc0 hb0
          have hcx : c ∈ xs := by
            rw [hxu, ← hc0]; exact List.mem_append_right _ (List.mem_cons_self _ _)
          have hcq : isChanOrQuery c = true := hx c hcx
          have hle : localeCompare nc.name c.name ≠ Ordering.gt := stopHere_true_query hc hcq
          refine ⟨a ++ nc :: c :: u', ys, ?_, ?_, hy, ?_⟩
          · show (hd :: (a ++ nc :: c :: b)).drop 1 = (a ++ nc :: c :: u') ++ ys
            rw [List.drop_succ_cons, List.drop_zero, hb0, List.append_assoc]
            rfl
          · intro x hx'
            rcases List.mem_append.mp hx' with h1 | h2
            · exact hx x (by rw [hxu]; exact List.mem_append_left _ h1)
            · rcases List.mem_cons.mp h2 with h3 | h4
              · rw [h3]; exact hq
              · rcases List.mem_cons.mp h4 with h5 | h6
                · rw [h5]; exact hcq
                · exact hx x (by
                    rw [hxu, ← hc0]
                    exact List.mem_append_right _ (List.mem_cons_of_mem _ h6))
          · have hchain' : List.Chain' nameLe (a ++ c :: u') := by
              rw [hxu, ← hc0] at hchain
              exact hchain
            rw [List.chain'_append] at hchain' ⊢
            obtain ⟨hca, hccons, hlink⟩ := hchain'
            refine ⟨hca, ?_, ?_⟩
            · rw [List.chain'_cons]
              exact ⟨hle, hccons⟩
            · intro x hx' y hy'
              simp only [List.head?_cons, Option.mem_def, Option.some.injEq] at hy'
              subst hy'
              exact nameLe_of_scan_gt
                (stopHere_false_elim (ha x (List.mem_of_mem_getLast? hx'))).1

/-- C7 (counterexample): the claim's stopping rule — insert at the first
index ≥ 1 whose occupant sorts case-insensitively at or after the new
entity — fails on case-variant names. Inserting the channel "#Apple"
into [lobby, "#apple"]: the occupant at index 1 is a channel sorting
case-insensitively at-or-after "#Apple", so the claim demands index 1,
but `localeCompare` under the default collator is positive ("a" sorts
before "A" only at the case tiebreak, and "#Apple" sorts after
"#apple"), so the loop runs past it and the code inserts at index 2. -/
theorem c7_case_insensitive_rule_counterexample :
    specCaseInsensitiveLe c7appleUpper.name c7appleLower.name ∧
    isChanOrQuery c7appleLower = true ∧
    addChannel [c7lobby, c7appleLower] c7appleUpper
      = ([c7lobby, c7appleLower, c7appleUpper], 2) := by
  refine ⟨?_, by decide, by decide⟩
  unfold specCaseInsensitiveLe
  decide

/-- C7 (amended): addChannel appends non-channel/query entities at the
end, splices a channel/query entity at the first index ≥ 1 whose
occupant sorts at or after it under the collation the code actually uses
(`localeCompare`: caseless on base letters, with a lowercase-first case
tiebreak, since the `{sensitivity: "base"}` option sits in the ignored
locales slot) or is not itself a channel/query, and returns the index
used; on any registry of the maintained shape the lobby stays pinned at
index 0 and the channel/query block stays sorted under that collation;
inserting "mango" into [lobby, "alpha", "zulu"] yields
[lobby, "alpha", "mango", "zulu"] at index 2. -/
theorem c7_addChannel_sorted_insert :
    (∀ (chans : List Chan) (c : Chan), isChanOrQuery c = false →
       addChannel chans c = (chans ++ [c], chans.length)) ∧
    (∀ (chans : List Chan) (c : Chan),
       (addChannel chans c).1 = spliceIn chans (addChannel chans c).2 c) ∧
    (∀ (chans : List Chan) (c : Chan), chans ≠ [] → RegistryOrdered chans →
       (addChannel chans c).1.head? = chans.head? ∧ 1 ≤ (addChannel chans c).2 ∧
       RegistryOrdered (addChannel chans c).1) ∧
    addChannel [c7lobby, c7alpha, c7zulu] c7mango = ([c7lobby, c7alpha, c7mango, c7zulu], 2) := by
  refine ⟨addChannel_special, fun chans c => rfl, addChannel_preserves, ?_⟩
  decide

/-- Witness for the amended C7 theorem at the concrete
[lobby, "alpha", "zulu"] registry with "mango" inserted. -/
theorem c7_addChannel_sorted_insert_witness :
    (addChannel [c7lobby, c7alpha, c7zulu] c7mango).1.head? = [c7lobby, c7alpha, c7zulu].head? ∧
    1 ≤ (addChannel [c7lobby, c7alpha, c7zulu] c7mango).2 ∧
    RegistryOrdered (addChannel [c7lobby, c7alpha, c7zulu] c7mango).1 :=
  c7_addChannel_sorted_insert.2.2.1 [c7lobby, c7alpha, c7zulu] c7mango (by decide)
    ⟨[c7alpha, c7zulu], [], rfl, by decide, by decide,
      List.chain'_pair.mpr (by unfold nameLe; decide)⟩

end TheLounge
